import Mathlib

/-!
# Firmware-cabinet ingester (`libappstream-glib/as-store-cab.c`)

A shallow embedding of the cabinet ingester and the properties its
specification states about it.

The C functions of `as-store-cab.c` are embedded one to one, under their own
names.  Objects that the C code mutates in place (the release, the store, the
filesystem) are passed in and handed back explicitly.  A `gboolean` result
with a `GError **` out-parameter is an `Except String Unit`: `.ok ()` is
`TRUE`, `.error msg` is `FALSE` with `msg` stored in the error.

The collaborators that are not part of `as-store-cab.c` are modelled as
follows.

* glib path helpers, file tests and file reads: small executable models that
  follow the documented behaviour of the glib calls, over a filesystem that is
  a finite table from path strings to nodes.
* the cabinet decoder and the metainfo XML parser: fields of `Env`, so every
  theorem holds for every decoder and every parser.
* `AsRelease`, `AsApp`, `AsStore`: records holding the attributes the ingester
  reads and writes.
-/

namespace AsStoreCab

/-- Octet sequences: file contents, stream chunks and blobs. -/
abbrev Bytes := List Nat

/-! ## Releases, applications, store -/

/-- The two size kinds the ingester touches (`AS_SIZE_KIND_*`). -/
inductive AsSizeKind where
  | INSTALLED
  | DOWNLOAD
deriving DecidableEq, Repr

/-- Modelled from the spec: the `Release` entity, a versioned artifact with a
firmware filename (absent on legacy input), an installed-size, a
download-size and named binary blobs. -/
structure AsRelease where
  version : String
  filename : Option String
  size_installed : Nat
  size_download : Nat
  blobs : List (String × Bytes)
deriving DecidableEq, Repr

/-- Modelled from the spec: the `App` entity, an identity and a collection of
releases in declaration order. -/
structure AsApp where
  id : String
  releases : List AsRelease
deriving DecidableEq, Repr

/-- Modelled from the spec: the `Store` entity, an origin string and the
application records it has accepted. -/
structure AsStore where
  origin : Option String
  apps : List AsApp
deriving DecidableEq, Repr

/-- Modelled from the spec: `Release.filename()`; `none` is the C `NULL`. -/
def as_release_get_filename (release : AsRelease) : Option String :=
  release.filename

/-- Modelled from the spec: `Release.set_filename(name)`. -/
def as_release_set_filename (release : AsRelease) (filename : String) : AsRelease :=
  { release with filename := some filename }

/-- Modelled from the spec: `Release.size(kind)`. -/
def as_release_get_size (release : AsRelease) (kind : AsSizeKind) : Nat :=
  match kind with
  | .INSTALLED => release.size_installed
  | .DOWNLOAD => release.size_download

/-- Modelled from the spec: `Release.set_size(kind, n)`. -/
def as_release_set_size (release : AsRelease) (kind : AsSizeKind) (size : Nat) : AsRelease :=
  match kind with
  | .INSTALLED => { release with size_installed := size }
  | .DOWNLOAD => { release with size_download := size }

/-- Modelled from the spec: `Release.set_blob(key, bytes)` attaches `bytes`
under `key`, replacing an earlier blob of the same key (the blobs are a
table keyed by filename).  A `NULL` key attaches nothing. -/
def as_release_set_blob (release : AsRelease) (filename : Option String) (blob : Bytes) :
    AsRelease :=
  match filename with
  | none => release
  | some key =>
    { release with blobs := (key, blob) :: release.blobs.filter (fun e => e.1 != key) }

/-- Modelled from the spec: the blob a release carries under `key`, if any. -/
def as_release_get_blob (release : AsRelease) (key : String) : Option Bytes :=
  release.blobs.lookup key

/-- Modelled from the spec: `App.releases()`. -/
def as_app_get_releases (app : AsApp) : List AsRelease :=
  app.releases

/-- Modelled from the spec: `App.default_release()` is the first (primary)
release, and `none` when the application declares no release. -/
def as_app_get_release_default (app : AsApp) : Option AsRelease :=
  app.releases.head?

/-- Modelled from the spec: `Store.set_origin(string)`. -/
def as_store_set_origin (store : AsStore) (origin : String) : AsStore :=
  { store with origin := some origin }

/-- Modelled from the spec: `Store.add_app(App)`; the store accepts records
incrementally, in the order they are added. -/
def as_store_add_app (store : AsStore) (app : AsApp) : AsStore :=
  { store with apps := store.apps ++ [app] }

/-! ## glib path helpers -/

/-- Model of `g_path_get_basename` (Unix separators): `NULL` fails the
precondition check of glib and gives `NULL`, the empty string gives `.`, a
string of separators gives `/`, otherwise the last component without
trailing separators. -/
def g_path_get_basename (file_name : Option String) : Option String :=
  match file_name with
  | none => none
  | some s =>
    if s.data = [] then some "."
    else
      let stripped := s.data.reverse.dropWhile (fun c => c == '/')
      if stripped = [] then some "/"
      else some (String.mk (stripped.takeWhile (fun c => c != '/')).reverse)

/-- Element of a path with its leading and trailing separators removed. -/
def path_body (element : String) : List Char :=
  ((element.data.dropWhile (fun c => c == '/')).reverse.dropWhile (fun c => c == '/')).reverse

/-- Model of `g_build_filename` applied to the elements before the `NULL`
terminator, after the glib documentation: empty elements are ignored, one
separator is put at each boundary, the leading separators of the first
non-empty element and the trailing separators of the last one are kept, and
a single element made of separators only is returned as it is. -/
def g_build_filename (elements : List String) : String :=
  match elements.filter (fun e => e.data != []) with
  | [] => ""
  | first :: rest =>
    if rest = [] ∧ path_body first = [] then first
    else
      let last := (first :: rest).getLast?.getD first
      let leading := first.data.takeWhile (fun c => c == '/')
      let trailing := (last.data.reverse.takeWhile (fun c => c == '/')).reverse
      let bodies := ((first :: rest).map path_body).filter (fun b => b != [])
      String.mk (leading ++ (bodies.intersperse ['/']).flatten ++ trailing)

/-- Model of `g_strdup_printf ("%s.asc", s)`: a `NULL` argument prints as
`(null)`. -/
def asc_name (rel_basename : Option String) : String :=
  rel_basename.getD "(null)" ++ ".asc"

/-! ## Filesystem -/

/-- Filesystem node: a regular file (with its contents and whether it can be
read) or a directory. -/
inductive Node where
  | file (data : Bytes) (readable : Bool)
  | dir
deriving DecidableEq, Repr

/-- Filesystem state: a finite table from paths to nodes. -/
abbrev FS := List (String × Node)

/-- Model of `g_file_test (path, G_FILE_TEST_EXISTS)`. -/
def g_file_test (fs : FS) (path : String) : Bool :=
  (fs.lookup path).isSome

/-- Model of `g_file_get_contents`: the bytes of a readable regular file,
or the cause of the failure. -/
def g_file_get_contents (fs : FS) (path : String) : Except String Bytes :=
  match fs.lookup path with
  | some (.file data true) => .ok data
  | some (.file _ false) => .error "Permission denied"
  | some .dir => .error "Is a directory"
  | none => .error "No such file or directory"

/-- Entry removal from the table. -/
def fs_remove (fs : FS) (path : String) : FS :=
  fs.filter (fun e => e.1 != path)

/-- Model of `g_unlink`: removes a regular file; fails silently otherwise. -/
def g_unlink (fs : FS) (path : String) : FS :=
  match fs.lookup path with
  | some (.file _ _) => fs_remove fs path
  | _ => fs

/-- Model of `g_rmdir`: removes an empty directory; fails silently otherwise. -/
def g_rmdir (fs : FS) (path : String) : FS :=
  match fs.lookup path with
  | some .dir =>
    if fs.any (fun e => (path.data ++ ['/']).isPrefixOf e.1.data) then fs
    else fs_remove fs path
  | _ => fs

/-- File creation or replacement with the given contents. -/
def fs_write (fs : FS) (path : String) (data : Bytes) : FS :=
  (path, .file data true) :: fs_remove fs path

/-- Directory creation. -/
def fs_mkdir (fs : FS) (path : String) : FS :=
  (path, .dir) :: fs_remove fs path

/-! ## `as_store_cab_set_release_blobs` -/

/-- Path `rel_fn` that `as_store_cab_set_release_blobs` looks the firmware up
at: `<tmp_path>/<basename of the release filename>`. -/
def rel_fn (release : AsRelease) (tmp_path : String) : String :=
  g_build_filename (tmp_path :: (g_path_get_basename (as_release_get_filename release)).toList)

/-- Path `asc_fn` that `as_store_cab_set_release_blobs` looks the detached
signature up at. -/
def asc_fn (release : AsRelease) (tmp_path : String) : String :=
  g_build_filename [tmp_path, asc_name (g_path_get_basename (as_release_get_filename release))]

/-- Second half of `as_store_cab_set_release_blobs` (lines 88-109): the
signing file. -/
def set_release_blobs_asc (release : AsRelease) (tmp_path : String) (fs : FS)
    (rel_basename : Option String) : AsRelease × Except String Unit :=
  let asc_basename := asc_name rel_basename
  let asc_fn := g_build_filename [tmp_path, asc_basename]
  if g_file_test fs asc_fn then
    match g_file_get_contents fs asc_fn with
    | .error message =>
      (release, .error ("failed to open " ++ asc_fn ++ ": " ++ message))
    | .ok data =>
      (as_release_set_blob release (some asc_basename) data, .ok ())
  else
    (release, .ok ())

/-- Embedding of `as_store_cab_set_release_blobs` (lines 48-110).  The
release is mutated in place in C, so the release is returned together with
the status, also on failure. -/
def as_store_cab_set_release_blobs (release : AsRelease) (tmp_path : String) (fs : FS) :
    AsRelease × Except String Unit :=
  let rel_basename := g_path_get_basename (as_release_get_filename release)
  let rel_fn := g_build_filename (tmp_path :: rel_basename.toList)
  if g_file_test fs rel_fn then
    match g_file_get_contents fs rel_fn with
    | .error message =>
      (release, .error ("failed to open " ++ rel_fn ++ ": " ++ message))
    | .ok data =>
      let release1 :=
        if as_release_get_size release .INSTALLED = 0 then
          as_release_set_size release .INSTALLED data.length
        else release
      set_release_blobs_asc (as_release_set_blob release1 rel_basename data)
        tmp_path fs rel_basename
  else
    set_release_blobs_asc release tmp_path fs rel_basename

/-! ## External decoders -/

/-- Member of a loaded cabinet: its name as the archive gives it, and its
contents, or the reason they cannot be decoded. -/
structure GCabFile where
  name : String
  data : Except String Bytes

/-- Loaded cabinet: its members in archive order. -/
structure GCabCabinet where
  files : List GCabFile

/-- Source kinds returned by `as_app_guess_source_kind` that the ingester
distinguishes. -/
inductive AsAppSourceKind where
  | METAINFO
  | INF
  | UNKNOWN
deriving DecidableEq, Repr

/-- The collaborators the ingester calls and that decode opaque bytes or
depend on the platform: the cabinet loader, the metainfo parser and the
outcome of creating the temporary directory. -/
structure Env where
  /-- The call `gcab_cabinet_load` on the bytes of the input stream. -/
  gcab_cabinet_load : Bytes → Except String GCabCabinet
  /-- The document parser behind `as_app_parse_file`. -/
  parse_metainfo : Bytes → Except String AsApp
  /-- The path `g_dir_make_tmp` picks, or the reason it fails. -/
  tmp_dir : Except String String

/-- Modelled from the spec: `Parser.guess_source_kind(name)` classifies a
filename as a metadata document (`*.metainfo.xml`), a legacy driver
descriptor (`*.inf`) or anything else. -/
def as_app_guess_source_kind (filename : String) : AsAppSourceKind :=
  if ".metainfo.xml".data.isSuffixOf filename.data then .METAINFO
  else if ".inf".data.isSuffixOf filename.data then .INF
  else .UNKNOWN

/-- Modelled from the spec: `Parser.parse_file(path, flags)` reads the file
at `path` and parses it as a metadata document. -/
def as_app_parse_file (env : Env) (fs : FS) (path : String) : Except String AsApp :=
  match g_file_get_contents fs path with
  | .error message => .error message
  | .ok doc => env.parse_metainfo doc

/-- Model of `g_dir_make_tmp`: creates the directory it picked. -/
def g_dir_make_tmp (env : Env) (fs : FS) : Except String (String × FS) :=
  match env.tmp_dir with
  | .error message => .error message
  | .ok tmp_path => .ok (tmp_path, fs_mkdir fs tmp_path)

/-- Embedding of the callback `as_store_cab_cb` (lines 37-43): appends the
member name to the file list and accepts the member. -/
def as_store_cab_cb (file : GCabFile) (filelist : List String) : List String × Bool :=
  (filelist ++ [file.name], true)

/-- Model of `gcab_cabinet_extract_simple` with a per-member callback: the
members are visited in archive order; the callback is asked first; an
accepted member is written to `<dir>/<name>`; a member that cannot be
decoded ends the extraction with an error and leaves on disk what was
written before it. -/
def gcab_cabinet_extract_simple (files : List GCabFile) (dir : String)
    (cb : GCabFile → List String → List String × Bool)
    (fs : FS) (filelist : List String) : FS × List String × Except String Unit :=
  match files with
  | [] => (fs, filelist, .ok ())
  | file :: rest =>
    match cb file filelist with
    | (filelist1, false) => gcab_cabinet_extract_simple rest dir cb fs filelist1
    | (filelist1, true) =>
      match file.data with
      | .error message => (fs, filelist1, .error message)
      | .ok data =>
        gcab_cabinet_extract_simple rest dir cb
          (fs_write fs (g_build_filename [dir, file.name]) data) filelist1

/-! ## `as_store_cab_from_stream` -/

/-- The fix-ups of lines 204-210 on the default release: the legacy
filename, then the download size. -/
def fixup_release (rel : AsRelease) (size : Nat) : AsRelease :=
  let rel1 :=
    if as_release_get_filename rel = none then as_release_set_filename rel "firmware.bin"
    else rel
  if size > 0 ∧ as_release_get_size rel1 .DOWNLOAD = 0 then
    as_release_set_size rel1 .DOWNLOAD size
  else rel1

/-- In-place update of the default release of an application: the fix-ups
write through the pointer `as_app_get_release_default` returned. -/
def app_set_release_default (app : AsApp) (rel : AsRelease) : AsApp :=
  { app with releases := rel :: app.releases.tail }

/-- First loop of `as_store_cab_from_stream` (lines 166-220): walks the file
list, parses every metainfo member, validates and fixes up its default
release in place, and collects the applications in `apps`. -/
def scan_loop (env : Env) (fs : FS) (tmp_path : String) (size : Nat) :
    List String → List AsApp → Except String (List AsApp)
  | [], apps => .ok apps
  | fn :: rest, apps =>
    match as_app_guess_source_kind fn with
    | .METAINFO =>
      let tmp_fn := g_build_filename [tmp_path, fn]
      match as_app_parse_file env fs tmp_fn with
      | .error message => .error (tmp_fn ++ " could not be loaded: " ++ message)
      | .ok app =>
        match as_app_get_release_default app with
        | none => .error "no releases in metainfo file"
        | some rel =>
          scan_loop env fs tmp_path size rest
            (apps ++ [app_set_release_default app (fixup_release rel size)])
    | .INF => scan_loop env fs tmp_path size rest apps
    | .UNKNOWN => scan_loop env fs tmp_path size rest apps

/-- Inner loop of lines 227-231: the releases of one application, in
declaration order; stops at the first failure. -/
def attach_releases (tmp_path : String) (fs : FS) :
    List AsRelease → Except String (List AsRelease)
  | [] => .ok []
  | rel :: rest =>
    match as_store_cab_set_release_blobs rel tmp_path fs with
    | (_, .error message) => .error message
    | (rel1, .ok ()) =>
      match attach_releases tmp_path fs rest with
      | .error message => .error message
      | .ok rest1 => .ok (rel1 :: rest1)

/-- Second loop of `as_store_cab_from_stream` (lines 222-232): attaches the
blobs of every release of every application. -/
def attach_loop (tmp_path : String) (fs : FS) : List AsApp → Except String (List AsApp)
  | [] => .ok []
  | app :: rest =>
    match attach_releases tmp_path fs (as_app_get_releases app) with
    | .error message => .error message
    | .ok releases =>
      match attach_loop tmp_path fs rest with
      | .error message => .error message
      | .ok rest1 => .ok ({ app with releases := releases } :: rest1)

/-- Third loop (lines 234-238): adds every application to the store. -/
def publish_loop (store : AsStore) : List AsApp → AsStore
  | [] => store
  | app :: rest => publish_loop (as_store_add_app store app) rest

/-- Fourth loop (lines 240-247): unlinks every extracted file. -/
def unlink_loop (fs : FS) (tmp_path : String) : List String → FS
  | [] => fs
  | fn :: rest => unlink_loop (g_unlink fs (g_build_filename [tmp_path, fn])) tmp_path rest

/-- What a call leaves behind: the status it returns, the store and the
filesystem. -/
structure Outcome where
  ret : Except String Unit
  store : AsStore
  fs : FS

/-- Embedding of `as_store_cab_from_stream` (lines 115-252).  The input
stream is given by the bytes it yields. -/
def as_store_cab_from_stream (env : Env) (store : AsStore) (input_stream : Bytes)
    (size : Nat) (fs : FS) : Outcome :=
  match env.gcab_cabinet_load input_stream with
  | .error message => ⟨.error ("cannot load .cab file: " ++ message), store, fs⟩
  | .ok gcab =>
    match g_dir_make_tmp env fs with
    | .error message => ⟨.error ("failed to create temp dir: " ++ message), store, fs⟩
    | .ok (tmp_path, fs1) =>
      match gcab_cabinet_extract_simple gcab.files tmp_path as_store_cab_cb fs1 [] with
      | (fs2, _, .error message) =>
        ⟨.error ("failed to extract .cab file: " ++ message), store, fs2⟩
      | (fs2, filelist, .ok ()) =>
        match scan_loop env fs2 tmp_path size filelist [] with
        | .error message => ⟨.error message, store, fs2⟩
        | .ok apps =>
          match attach_loop tmp_path fs2 apps with
          | .error message => ⟨.error message, store, fs2⟩
          | .ok apps1 =>
            ⟨.ok (), publish_loop store apps1,
              g_rmdir (unlink_loop fs2 tmp_path filelist) tmp_path⟩

/-! ## `as_store_cab_from_fd` -/

/-- Model of `g_bytes_get_size`: the length; `NULL` fails the precondition
check of glib and gives 0. -/
def g_bytes_get_size (data : Option Bytes) : Nat :=
  match data with
  | none => 0
  | some bytes => bytes.length

/-- Read loop of `as_store_cab_from_fd` (lines 271-287).  The handle is
given by the results of its successive `g_input_stream_read_bytes` calls: a
chunk, or, with `NULL` returned, the error of the failed or cancelled read;
once they are used up the handle is at end of input and yields an empty
chunk.  The tests are in the order of the source: the size test first, the
`NULL` test second. -/
def read_loop : List (Except String Bytes) → Nat → Bytes → Except String (Nat × Bytes)
  | [], size, input_stream => .ok (size, input_stream)
  | read :: rest, size, input_stream =>
    let data : Option Bytes := read.toOption
    if g_bytes_get_size data = 0 then .ok (size, input_stream)
    else
      match read with
      | .error message => .error message
      | .ok bytes =>
        read_loop rest ((size + g_bytes_get_size (some bytes)) % 2 ^ 64) (input_stream ++ bytes)

/-- Embedding of `as_store_cab_from_fd` (lines 257-291). -/
def as_store_cab_from_fd (env : Env) (store : AsStore) (fd : List (Except String Bytes))
    (fs : FS) : Outcome :=
  match read_loop fd 0 [] with
  | .error message => ⟨.error message, store, fs⟩
  | .ok (size, input_stream) => as_store_cab_from_stream env store input_stream size fs

/-! ## `as_store_cab_from_file` -/

/-- Model of `g_file_get_basename` on a local path. -/
def g_file_get_basename (file : String) : String :=
  (g_path_get_basename (some file)).getD file

/-- Model of `g_file_query_info` for the size attribute: fails when the
token is cancelled or the path does not exist. -/
def g_file_query_info (fs : FS) (file : String) (cancelled : Bool) : Except String Nat :=
  if cancelled then .error "Operation was cancelled"
  else
    match fs.lookup file with
    | none => .error "No such file or directory"
    | some (.file data _) => .ok data.length
    | some .dir => .ok 0

/-- Model of `g_file_read`: opens a readable regular file and yields its
bytes as the stream. -/
def g_file_read (fs : FS) (file : String) (cancelled : Bool) : Except String Bytes :=
  if cancelled then .error "Operation was cancelled"
  else g_file_get_contents fs file

/-- Embedding of `as_store_cab_from_file` (lines 296-341). -/
def as_store_cab_from_file (env : Env) (store : AsStore) (file : String)
    (cancelled : Bool) (fs : FS) : Outcome :=
  let origin := g_file_get_basename file
  let store1 := as_store_set_origin store origin
  match g_file_query_info fs file cancelled with
  | .error message =>
    ⟨.error ("Failed to get info for " ++ file ++ ": " ++ message), store1, fs⟩
  | .ok size =>
    match g_file_read fs file cancelled with
    | .error message =>
      ⟨.error ("Failed to open " ++ file ++ ": " ++ message), store1, fs⟩
    | .ok input_stream => as_store_cab_from_stream env store1 input_stream size fs

/-! ## Notions the stated properties use -/

/-- The extracted members classified as metadata documents, in extraction
order. -/
def metainfo_members (filelist : List String) : List String :=
  filelist.filter (fun fn => as_app_guess_source_kind fn = .METAINFO)

/-- The effect of lines 194-210 on a parsed application with at least one
release: its default release is fixed up, the other releases are left as
parsed. -/
def fixup_app (size : Nat) (app : AsApp) : AsApp :=
  match as_app_get_release_default app with
  | none => app
  | some rel => app_set_release_default app (fixup_release rel size)

/-- What a successful run did to one parsed application `p` to obtain the
published application `a`: the default release was fixed up and then had its
blobs attached, the other releases had their blobs attached. -/
def Published (size : Nat) (tmp_path : String) (fs : FS) (p a : AsApp) : Prop :=
  ∃ rel_p rest_p rel_a rest_a,
    p.releases = rel_p :: rest_p ∧ a.releases = rel_a :: rest_a ∧ a.id = p.id ∧
    as_store_cab_set_release_blobs (fixup_release rel_p size) tmp_path fs = (rel_a, .ok ()) ∧
    List.Forall₂ (fun r r1 => as_store_cab_set_release_blobs r tmp_path fs = (r1, .ok ()))
      rest_p rest_a

/-! ## Worked archives -/

/-- A sample metainfo parser: the first octet of the document selects one of
a few fixed component descriptions. -/
def sample_parse_metainfo (doc : Bytes) : Except String AsApp :=
  match doc with
  | [1] => .ok ⟨"com.example.fw", [⟨"1.0", some "fw.bin", 0, 0, []⟩]⟩
  | [2] => .ok ⟨"com.example.norelease", []⟩
  | [3] => .ok ⟨"com.example.two",
      [⟨"2.0", some "fw.bin", 0, 0, []⟩, ⟨"1.0", some "old.bin", 0, 0, []⟩]⟩
  | [4] => .ok ⟨"com.example.legacy", [⟨"1.0", none, 0, 0, []⟩]⟩
  | [5] => .ok ⟨"com.example.prefilled", [⟨"1.0", some "fw.bin", 9999, 8888, []⟩]⟩
  | [6] => .ok ⟨"com.example.missing", [⟨"1.0", some "absent.bin", 0, 0, []⟩]⟩
  | [7] => .ok ⟨"com.example.mixed",
      [⟨"2.0", some "fw.bin", 0, 0, []⟩, ⟨"1.0", none, 0, 0, []⟩]⟩
  | _ => .error "not a metainfo document"

/-- A sample environment: every non-empty input decodes to the cabinet `cab`,
the parser is `sample_parse_metainfo`, and the temporary directory is
created at a fixed path. -/
def sample_env (cab : GCabCabinet) : Env where
  gcab_cabinet_load := fun input =>
    if input = [] then .error "cabinet has no header" else .ok cab
  parse_metainfo := sample_parse_metainfo
  tmp_dir := .ok "/tmp/appstream-glib-A1B2C3"

/-- The scratch directory of `sample_env`. -/
def sample_tmp : String := "/tmp/appstream-glib-A1B2C3"

/-- Cabinet of the happy path: a metainfo document that references `fw.bin`,
the firmware (1024 octets) and its detached signature (256 octets). -/
def cab_happy : GCabCabinet :=
  ⟨[⟨"x.metainfo.xml", .ok [1]⟩, ⟨"fw.bin", .ok (List.replicate 1024 0)⟩,
    ⟨"fw.bin.asc", .ok (List.replicate 256 1)⟩]⟩

/-- Cabinet whose metainfo document declares no release. -/
def cab_norelease : GCabCabinet :=
  ⟨[⟨"x.metainfo.xml", .ok [2]⟩, ⟨"fw.bin", .ok [7, 7, 7]⟩]⟩

/-- Cabinet whose metainfo document declares two releases, both with a
filename and with download-size 0. -/
def cab_two : GCabCabinet :=
  ⟨[⟨"x.metainfo.xml", .ok [3]⟩, ⟨"fw.bin", .ok [7, 7, 7]⟩]⟩

/-- Cabinet whose metainfo document references a file the archive does not
hold. -/
def cab_missing : GCabCabinet :=
  ⟨[⟨"x.metainfo.xml", .ok [6]⟩]⟩

/-- The scratch directory once `cab_happy` has been extracted into it. -/
def scratch_happy : FS :=
  [("/tmp/appstream-glib-A1B2C3/fw.bin", .file (List.replicate 1024 0) true),
   ("/tmp/appstream-glib-A1B2C3/fw.bin.asc", .file (List.replicate 256 1) true),
   ("/tmp/appstream-glib-A1B2C3", .dir)]

/-- A scratch directory holding a 100-octet `fw.bin` and no signature. -/
def scratch_small : FS :=
  [("/tmp/appstream-glib-A1B2C3/fw.bin", .file (List.replicate 100 0) true),
   ("/tmp/appstream-glib-A1B2C3", .dir)]

/-- A scratch directory holding the signature `fw.bin.asc` (256 octets)
without the firmware. -/
def scratch_signature_only : FS :=
  [("/tmp/appstream-glib-A1B2C3/fw.bin.asc", .file (List.replicate 256 1) true),
   ("/tmp/appstream-glib-A1B2C3", .dir)]

/-- A release that references `fw.bin` and declares no sizes. -/
def release_fw : AsRelease := ⟨"1.0", some "fw.bin", 0, 0, []⟩

/-- A release that references `fw.bin` and declares both sizes. -/
def release_prefilled : AsRelease := ⟨"1.0", some "fw.bin", 9999, 8888, []⟩

/-- A release that references a file that is not in the scratch directory. -/
def release_missing : AsRelease := ⟨"1.0", some "absent.bin", 0, 0, []⟩

/-- Cabinet that holds a legacy driver descriptor and a text file, and no
metadata document. -/
def cab_inf : GCabCabinet :=
  ⟨[⟨"driver.inf", .ok [9]⟩, ⟨"readme.txt", .ok [8]⟩]⟩

/-- The filesystem once `cab_happy` has been extracted. -/
def extracted_happy : FS :=
  [("/tmp/appstream-glib-A1B2C3/fw.bin.asc", .file (List.replicate 256 1) true),
   ("/tmp/appstream-glib-A1B2C3/fw.bin", .file (List.replicate 1024 0) true),
   ("/tmp/appstream-glib-A1B2C3/x.metainfo.xml", .file [1] true),
   ("/tmp/appstream-glib-A1B2C3", .dir)]

/-- The filesystem once `cab_two` has been extracted. -/
def extracted_two : FS :=
  [("/tmp/appstream-glib-A1B2C3/fw.bin", .file [7, 7, 7] true),
   ("/tmp/appstream-glib-A1B2C3/x.metainfo.xml", .file [3] true),
   ("/tmp/appstream-glib-A1B2C3", .dir)]

/-- The filesystem once `cab_missing` has been extracted. -/
def extracted_missing : FS :=
  [("/tmp/appstream-glib-A1B2C3/x.metainfo.xml", .file [6] true),
   ("/tmp/appstream-glib-A1B2C3", .dir)]

/-- The filesystem once `cab_inf` has been extracted. -/
def extracted_inf : FS :=
  [("/tmp/appstream-glib-A1B2C3/readme.txt", .file [8] true),
   ("/tmp/appstream-glib-A1B2C3/driver.inf", .file [9] true),
   ("/tmp/appstream-glib-A1B2C3", .dir)]

/-- The filesystem once `cab_norelease` has been extracted. -/
def extracted_norelease : FS :=
  [("/tmp/appstream-glib-A1B2C3/fw.bin", .file [7, 7, 7] true),
   ("/tmp/appstream-glib-A1B2C3/x.metainfo.xml", .file [2] true),
   ("/tmp/appstream-glib-A1B2C3", .dir)]

/-- An empty store with a previous origin. -/
def sample_store : AsStore := ⟨some "previous.cab", []⟩

/-! ## Blob attachment: supporting lemmas -/

theorem asc_name_ne (n : String) : (n ++ ".asc" == n) = false := by
  have h : n ++ ".asc" ≠ n := by
    intro h
    have hl := congrArg String.length h
    simp [String.length_append] at hl
    have : ".asc".length = 4 := by decide
    omega
  simpa using h

theorem get_contents_ok_exists (fs : FS) (path : String) (data : Bytes)
    (h : g_file_get_contents fs path = .ok data) : g_file_test fs path = true := by
  unfold g_file_get_contents at h
  unfold g_file_test
  cases hl : List.lookup path fs with
  | none => rw [hl] at h; simp at h
  | some node => rfl

theorem set_release_blobs_asc_absent (release : AsRelease) (tmp_path : String) (fs : FS)
    (b : Option String)
    (h : g_file_test fs (g_build_filename [tmp_path, asc_name b]) = false) :
    set_release_blobs_asc release tmp_path fs b = (release, .ok ()) := by
  simp [set_release_blobs_asc, h]

theorem set_release_blobs_asc_sizes (release : AsRelease) (tmp_path : String) (fs : FS)
    (b : Option String) :
    (set_release_blobs_asc release tmp_path fs b).1.size_installed = release.size_installed ∧
    (set_release_blobs_asc release tmp_path fs b).1.size_download = release.size_download ∧
    (set_release_blobs_asc release tmp_path fs b).1.filename = release.filename ∧
    (set_release_blobs_asc release tmp_path fs b).1.version = release.version := by
  unfold set_release_blobs_asc
  simp only
  split
  · split <;> simp [as_release_set_blob]
  · simp

theorem lookup_filter_ne (l : List (String × Bytes)) (k k' : String) (h : (k == k') = false) :
    List.lookup k (l.filter (fun e => e.1 != k')) = List.lookup k l := by
  induction l with
  | nil => rfl
  | cons e rest ih =>
    obtain ⟨key, blob⟩ := e
    by_cases hk : key = k'
    · subst hk
      have h1 : (k == key) = false := h
      simp [List.filter, List.lookup, h1, ih]
    · have h2 : (key != k') = true := by simpa using hk
      simp only [List.filter, h2, List.lookup]
      cases hkk : k == key <;> simp [ih]

theorem lookup_set_blob_same (release : AsRelease) (key : String) (blob : Bytes) :
    as_release_get_blob (as_release_set_blob release (some key) blob) key = some blob := by
  simp [as_release_get_blob, as_release_set_blob, List.lookup]

theorem lookup_set_blob_other (release : AsRelease) (key k : String) (blob : Bytes)
    (h : (k == key) = false) :
    as_release_get_blob (as_release_set_blob release (some key) blob) k =
      as_release_get_blob release k := by
  simp only [as_release_get_blob, as_release_set_blob, List.lookup, h]
  exact lookup_filter_ne _ _ _ h

theorem asc_ne_name (n : String) : (n == n ++ ".asc") = false := by
  have h := asc_name_ne n
  simp only [beq_eq_false_iff_ne, ne_eq] at h ⊢
  exact fun e => h e.symm

theorem set_release_blobs_asc_keeps (release : AsRelease) (tmp_path : String) (fs : FS)
    (n : String) :
    as_release_get_blob (set_release_blobs_asc release tmp_path fs (some n)).1 n =
      as_release_get_blob release n := by
  unfold set_release_blobs_asc
  simp only
  split
  · split
    · rfl
    · exact lookup_set_blob_other _ _ _ _ (asc_ne_name n)
  · rfl

theorem set_release_blobs_asc_attached (release : AsRelease) (tmp_path : String) (fs : FS)
    (b : Option String)
    (hok : (set_release_blobs_asc release tmp_path fs b).2 = .ok ())
    (hex : g_file_test fs (g_build_filename [tmp_path, asc_name b]) = true) :
    ∃ data, g_file_get_contents fs (g_build_filename [tmp_path, asc_name b]) = .ok data ∧
      as_release_get_blob (set_release_blobs_asc release tmp_path fs b).1 (asc_name b)
        = some data := by
  unfold set_release_blobs_asc at hok ⊢
  simp only [hex, if_true] at hok ⊢
  cases hc : g_file_get_contents fs (g_build_filename [tmp_path, asc_name b]) with
  | error message => rw [hc] at hok; simp at hok
  | ok data => exact ⟨data, rfl, lookup_set_blob_same _ _ _⟩

theorem set_release_blobs_absent (release : AsRelease) (tmp_path : String) (fs : FS)
    (hfw : g_file_test fs (rel_fn release tmp_path) = false)
    (hasc : g_file_test fs (asc_fn release tmp_path) = false) :
    as_store_cab_set_release_blobs release tmp_path fs = (release, .ok ()) := by
  unfold rel_fn at hfw
  unfold asc_fn at hasc
  unfold as_store_cab_set_release_blobs
  simp only [hfw]
  exact set_release_blobs_asc_absent _ _ _ _ hasc

theorem set_release_blobs_fields (release : AsRelease) (tmp_path : String) (fs : FS) :
    (as_store_cab_set_release_blobs release tmp_path fs).1.size_download
      = release.size_download ∧
    (as_store_cab_set_release_blobs release tmp_path fs).1.filename = release.filename ∧
    (as_store_cab_set_release_blobs release tmp_path fs).1.version = release.version := by
  unfold as_store_cab_set_release_blobs
  simp only
  split
  · split
    · simp
    · obtain ⟨_, h2, h3, h4⟩ := set_release_blobs_asc_sizes
        (as_release_set_blob
          (if as_release_get_size release .INSTALLED = 0 then
            as_release_set_size release .INSTALLED (List.length ‹Bytes›)
          else release)
          (g_path_get_basename (as_release_get_filename release)) ‹Bytes›)
        tmp_path fs (g_path_get_basename (as_release_get_filename release))
      rw [h2, h3, h4]
      cases hb : g_path_get_basename (as_release_get_filename release) <;>
        split <;> simp [as_release_set_blob, as_release_set_size]
  · obtain ⟨_, h2, h3, h4⟩ := set_release_blobs_asc_sizes release tmp_path fs
      (g_path_get_basename (as_release_get_filename release))
    exact ⟨h2, h3, h4⟩

/-! ## Blob attachment: the stated properties -/

/-- C5: round trip of blobs.  For a release with declared firmware filename
`f` whose basename is `n`, after `as_store_cab_set_release_blobs` succeeds
the release carries under key `n` exactly the bytes of `<scratch>/n` if that
file exists, and under key `n.asc` exactly the bytes of `<scratch>/n.asc` if
that file exists; the second part does not depend on the firmware file. -/
theorem C5_blob_round_trip (release : AsRelease) (tmp_path : String) (fs : FS)
    (f n : String)
    (hf : as_release_get_filename release = some f)
    (hn : g_path_get_basename (some f) = some n)
    (hok : (as_store_cab_set_release_blobs release tmp_path fs).2 = .ok ()) :
    (g_file_test fs (g_build_filename [tmp_path, n]) = true →
      ∃ data, g_file_get_contents fs (g_build_filename [tmp_path, n]) = .ok data ∧
        as_release_get_blob (as_store_cab_set_release_blobs release tmp_path fs).1 n
          = some data) ∧
    (g_file_test fs (g_build_filename [tmp_path, n ++ ".asc"]) = true →
      ∃ data, g_file_get_contents fs (g_build_filename [tmp_path, n ++ ".asc"]) = .ok data ∧
        as_release_get_blob (as_store_cab_set_release_blobs release tmp_path fs).1
          (n ++ ".asc") = some data) := by
  have hasc : asc_name (some n) = n ++ ".asc" := rfl
  unfold as_store_cab_set_release_blobs at hok ⊢
  simp only [hf, hn, Option.toList] at hok ⊢
  cases hex : g_file_test fs (g_build_filename [tmp_path, n]) with
  | false =>
    simp only [hex] at hok ⊢
    refine ⟨fun h => by simp at h, fun h => ?_⟩
    have := set_release_blobs_asc_attached release tmp_path fs (some n) hok (by rw [hasc]; exact h)
    rw [hasc] at this
    exact this
  | true =>
    simp only [hex, if_true] at hok ⊢
    cases hc : g_file_get_contents fs (g_build_filename [tmp_path, n]) with
    | error message => rw [hc] at hok; simp at hok
    | ok data =>
      simp only [hc] at hok ⊢
      refine ⟨fun _ => ⟨data, rfl, ?_⟩, fun h => ?_⟩
      · rw [set_release_blobs_asc_keeps]
        exact lookup_set_blob_same _ _ _
      · have := set_release_blobs_asc_attached _ tmp_path fs (some n) hok (by rw [hasc]; exact h)
        rw [hasc] at this
        exact this

/-- Witness of C5: `fw.bin` (1024 octets) and `fw.bin.asc` (256 octets) in
the scratch directory yield blobs keyed exactly `fw.bin` and `fw.bin.asc`
with those contents; with the signature alone in the scratch directory the
signature is attached all the same. -/
theorem C5_blob_round_trip_witness :
    as_release_get_filename release_fw = some "fw.bin" ∧
    g_path_get_basename (some "fw.bin") = some "fw.bin" ∧
    (as_store_cab_set_release_blobs release_fw sample_tmp scratch_happy).2 = .ok () ∧
    (∃ data, g_file_get_contents scratch_happy (g_build_filename [sample_tmp, "fw.bin"])
        = .ok data ∧
      as_release_get_blob
        (as_store_cab_set_release_blobs release_fw sample_tmp scratch_happy).1 "fw.bin"
        = some data) ∧
    (∃ data, g_file_get_contents scratch_happy
        (g_build_filename [sample_tmp, "fw.bin" ++ ".asc"]) = .ok data ∧
      as_release_get_blob
        (as_store_cab_set_release_blobs release_fw sample_tmp scratch_happy).1
        ("fw.bin" ++ ".asc") = some data) ∧
    (as_store_cab_set_release_blobs release_fw sample_tmp scratch_happy).1.blobs
      = [("fw.bin.asc", List.replicate 256 1), ("fw.bin", List.replicate 1024 0)] ∧
    g_file_test scratch_signature_only (g_build_filename [sample_tmp, "fw.bin"]) = false ∧
    (∃ data, g_file_get_contents scratch_signature_only
        (g_build_filename [sample_tmp, "fw.bin" ++ ".asc"]) = .ok data ∧
      as_release_get_blob
        (as_store_cab_set_release_blobs release_fw sample_tmp scratch_signature_only).1
        ("fw.bin" ++ ".asc") = some data) :=
  ⟨by rfl, by rfl, by rfl,
   (C5_blob_round_trip release_fw sample_tmp scratch_happy "fw.bin" "fw.bin"
      (by rfl) (by rfl) (by rfl)).1 (by rfl),
   (C5_blob_round_trip release_fw sample_tmp scratch_happy "fw.bin" "fw.bin"
      (by rfl) (by rfl) (by rfl)).2 (by rfl),
   by rfl, by rfl,
   (C5_blob_round_trip release_fw sample_tmp scratch_signature_only "fw.bin" "fw.bin"
      (by rfl) (by rfl) (by rfl)).2 (by rfl)⟩

/-- C6: when the firmware file `<scratch>/<basename>` exists and is readable
with contents `data`, after `as_store_cab_set_release_blobs` the
installed-size of the release is the length of `data` if it was 0 before and
is unchanged if it was non-zero, and the blob is attached under the basename
either way; the download-size is never changed by blob attachment. -/
theorem C6_installed_size_accounting (release : AsRelease) (tmp_path : String) (fs : FS) :
    (∀ data, g_file_get_contents fs (rel_fn release tmp_path) = .ok data →
      as_release_get_size (as_store_cab_set_release_blobs release tmp_path fs).1 .INSTALLED
        = (if as_release_get_size release .INSTALLED = 0 then data.length
           else as_release_get_size release .INSTALLED) ∧
      ∀ n, g_path_get_basename (as_release_get_filename release) = some n →
        as_release_get_blob (as_store_cab_set_release_blobs release tmp_path fs).1 n
          = some data) ∧
    as_release_get_size (as_store_cab_set_release_blobs release tmp_path fs).1 .DOWNLOAD
      = as_release_get_size release .DOWNLOAD := by
  refine ⟨fun data hread => ?_, (set_release_blobs_fields release tmp_path fs).1⟩
  have hex := get_contents_ok_exists _ _ _ hread
  unfold rel_fn at hread hex
  unfold as_store_cab_set_release_blobs
  simp only [hex, if_true, hread]
  constructor
  · rw [show ∀ r : AsRelease, as_release_get_size r .INSTALLED = r.size_installed from
      fun _ => rfl]
    rw [(set_release_blobs_asc_sizes _ tmp_path fs _).1]
    cases hb : g_path_get_basename (as_release_get_filename release) <;>
      by_cases h0 : as_release_get_size release .INSTALLED = 0 <;>
      simp [h0, as_release_set_blob, as_release_set_size] <;> rfl
  · intro n hn
    rw [hn, set_release_blobs_asc_keeps]
    exact lookup_set_blob_same _ _ _

/-- Witness of C6: a declared installed-size 9999 with a 100-octet file stays
9999, the download-size stays 8888 and the blob is attached; a declared
installed-size 0 becomes 100. -/
theorem C6_installed_size_accounting_witness :
    g_file_get_contents scratch_small (rel_fn release_prefilled sample_tmp)
      = .ok (List.replicate 100 0) ∧
    as_release_get_size
      (as_store_cab_set_release_blobs release_prefilled sample_tmp scratch_small).1
      .INSTALLED = 9999 ∧
    as_release_get_blob
      (as_store_cab_set_release_blobs release_prefilled sample_tmp scratch_small).1 "fw.bin"
      = some (List.replicate 100 0) ∧
    as_release_get_size
      (as_store_cab_set_release_blobs release_prefilled sample_tmp scratch_small).1
      .DOWNLOAD = 8888 ∧
    as_release_get_size
      (as_store_cab_set_release_blobs release_fw sample_tmp scratch_small).1
      .INSTALLED = 100 :=
  ⟨by rfl,
   ((C6_installed_size_accounting release_prefilled sample_tmp scratch_small).1
      (List.replicate 100 0) (by rfl)).1,
   ((C6_installed_size_accounting release_prefilled sample_tmp scratch_small).1
      (List.replicate 100 0) (by rfl)).2 "fw.bin" (by rfl),
   (C6_installed_size_accounting release_prefilled sample_tmp scratch_small).2,
   ((C6_installed_size_accounting release_fw sample_tmp scratch_small).1
      (List.replicate 100 0) (by rfl)).1⟩

/-! ## The pipeline: supporting lemmas -/

theorem publish_loop_eq (store : AsStore) (apps : List AsApp) :
    publish_loop store apps = ⟨store.origin, store.apps ++ apps⟩ := by
  induction apps generalizing store with
  | nil => simp [publish_loop]
  | cons a rest ih => simp [publish_loop, ih, as_store_add_app]

theorem scan_loop_spec (env : Env) (fs : FS) (tmp_path : String) (size : Nat) :
    ∀ (filelist : List String) (acc apps : List AsApp),
      scan_loop env fs tmp_path size filelist acc = .ok apps →
      ∃ parsed : List AsApp,
        List.Forall₂
          (fun fn p => as_app_parse_file env fs (g_build_filename [tmp_path, fn]) = .ok p)
          (metainfo_members filelist) parsed ∧
        (∀ p ∈ parsed, p.releases ≠ []) ∧
        apps = acc ++ parsed.map (fixup_app size) := by
  intro filelist
  induction filelist with
  | nil =>
    intro acc apps h
    simp only [scan_loop, Except.ok.injEq] at h
    exact ⟨[], by simp [metainfo_members], by simp, by simp [h]⟩
  | cons fn rest ih =>
    intro acc apps h
    unfold scan_loop at h
    cases hk : as_app_guess_source_kind fn with
    | METAINFO =>
      simp only [hk] at h
      cases hp : as_app_parse_file env fs (g_build_filename [tmp_path, fn]) with
      | error message => simp [hp] at h
      | ok app =>
        simp only [hp] at h
        cases hd : as_app_get_release_default app with
        | none => simp [hd] at h
        | some rel =>
          simp only [hd] at h
          obtain ⟨parsed, h1, h2, h3⟩ := ih _ _ h
          refine ⟨app :: parsed, ?_, ?_, ?_⟩
          · simp only [metainfo_members, List.filter, hk, decide_True]
            exact List.Forall₂.cons hp h1
          · intro p hmem
            rcases List.mem_cons.mp hmem with rfl | hmem
            · intro hnil
              simp [as_app_get_release_default, hnil] at hd
            · exact h2 p hmem
          · simp [h3, fixup_app, hd]
    | INF =>
      simp only [hk] at h
      obtain ⟨parsed, h1, h2, h3⟩ := ih _ _ h
      exact ⟨parsed, by simpa [metainfo_members, List.filter, hk] using h1, h2, h3⟩
    | UNKNOWN =>
      simp only [hk] at h
      obtain ⟨parsed, h1, h2, h3⟩ := ih _ _ h
      exact ⟨parsed, by simpa [metainfo_members, List.filter, hk] using h1, h2, h3⟩

theorem scan_loop_no_metainfo (env : Env) (fs : FS) (tmp_path : String) (size : Nat) :
    ∀ (filelist : List String) (acc : List AsApp), metainfo_members filelist = [] →
      scan_loop env fs tmp_path size filelist acc = .ok acc := by
  intro filelist
  induction filelist with
  | nil => intro acc _; rfl
  | cons fn rest ih =>
    intro acc h
    unfold scan_loop
    cases hk : as_app_guess_source_kind fn with
    | METAINFO => simp [metainfo_members, List.filter, hk] at h
    | INF =>
      simp only
      exact ih acc (by simpa [metainfo_members, List.filter, hk] using h)
    | UNKNOWN =>
      simp only
      exact ih acc (by simpa [metainfo_members, List.filter, hk] using h)

theorem attach_releases_spec (tmp_path : String) (fs : FS) :
    ∀ (rels rels1 : List AsRelease), attach_releases tmp_path fs rels = .ok rels1 →
      List.Forall₂ (fun r r1 => as_store_cab_set_release_blobs r tmp_path fs = (r1, .ok ()))
        rels rels1 := by
  intro rels
  induction rels with
  | nil =>
    intro rels1 h
    simp only [attach_releases, Except.ok.injEq] at h
    subst h
    exact List.Forall₂.nil
  | cons rel rest ih =>
    intro rels1 h
    unfold attach_releases at h
    rcases hs : as_store_cab_set_release_blobs rel tmp_path fs with ⟨rel1, status⟩
    rw [hs] at h
    cases status with
    | error message => simp at h
    | ok u =>
      cases u
      simp only at h
      cases hr : attach_releases tmp_path fs rest with
      | error message => simp [hr] at h
      | ok rest1 =>
        simp only [hr, Except.ok.injEq] at h
        subst h
        exact List.Forall₂.cons hs (ih _ hr)

theorem attach_loop_spec (tmp_path : String) (fs : FS) :
    ∀ (apps apps1 : List AsApp), attach_loop tmp_path fs apps = .ok apps1 →
      List.Forall₂
        (fun a a1 => a1.id = a.id ∧
          List.Forall₂
            (fun r r1 => as_store_cab_set_release_blobs r tmp_path fs = (r1, .ok ()))
            a.releases a1.releases)
        apps apps1 := by
  intro apps
  induction apps with
  | nil =>
    intro apps1 h
    simp only [attach_loop, Except.ok.injEq] at h
    subst h
    exact List.Forall₂.nil
  | cons app rest ih =>
    intro apps1 h
    unfold attach_loop at h
    cases hr : attach_releases tmp_path fs (as_app_get_releases app) with
    | error message => simp [hr] at h
    | ok releases =>
      simp only [hr] at h
      cases hl : attach_loop tmp_path fs rest with
      | error message => simp [hl] at h
      | ok rest1 =>
        simp only [hl, Except.ok.injEq] at h
        subst h
        exact List.Forall₂.cons ⟨rfl, attach_releases_spec _ _ _ _ hr⟩ (ih _ hl)

theorem attach_releases_absent (tmp_path : String) (fs : FS) :
    ∀ (rels : List AsRelease),
      (∀ rel ∈ rels, g_file_test fs (rel_fn rel tmp_path) = false ∧
        g_file_test fs (asc_fn rel tmp_path) = false) →
      attach_releases tmp_path fs rels = .ok rels := by
  intro rels
  induction rels with
  | nil => intro _; rfl
  | cons rel rest ih =>
    intro h
    have h1 := h rel (List.mem_cons_self _ _)
    unfold attach_releases
    rw [set_release_blobs_absent rel tmp_path fs h1.1 h1.2]
    simp only
    rw [ih (fun r hr => h r (List.mem_cons_of_mem _ hr))]

theorem attach_loop_absent (tmp_path : String) (fs : FS) :
    ∀ (apps : List AsApp),
      (∀ app ∈ apps, ∀ rel ∈ app.releases, g_file_test fs (rel_fn rel tmp_path) = false ∧
        g_file_test fs (asc_fn rel tmp_path) = false) →
      attach_loop tmp_path fs apps = .ok apps := by
  intro apps
  induction apps with
  | nil => intro _; rfl
  | cons app rest ih =>
    intro h
    unfold attach_loop
    rw [show as_app_get_releases app = app.releases from rfl,
      attach_releases_absent tmp_path fs _ (h app (List.mem_cons_self _ _))]
    simp only
    rw [ih (fun a ha => h a (List.mem_cons_of_mem _ ha))]

theorem from_stream_error_store (env : Env) (store : AsStore) (input_stream : Bytes)
    (size : Nat) (fs : FS)
    (h : (as_store_cab_from_stream env store input_stream size fs).ret ≠ .ok ()) :
    (as_store_cab_from_stream env store input_stream size fs).store = store := by
  unfold as_store_cab_from_stream at h ⊢
  cases hload : env.gcab_cabinet_load input_stream with
  | error message => rfl
  | ok gcab =>
    simp only [hload] at h ⊢
    cases htmp : g_dir_make_tmp env fs with
    | error message => rfl
    | ok made =>
      obtain ⟨tmp_path, fs1⟩ := made
      simp only [htmp] at h ⊢
      rcases hext : gcab_cabinet_extract_simple gcab.files tmp_path as_store_cab_cb fs1 []
        with ⟨fs2, filelist, status⟩
      cases status with
      | error message => rfl
      | ok u =>
        cases u
        simp only [hext] at h ⊢
        cases hs : scan_loop env fs2 tmp_path size filelist [] with
        | error message => rfl
        | ok apps =>
          simp only [hs] at h ⊢
          cases ha : attach_loop tmp_path fs2 apps with
          | error message => rfl
          | ok apps1 => simp [ha] at h

theorem from_stream_ok_stages (env : Env) (store : AsStore) (input_stream : Bytes)
    (size : Nat) (fs : FS) (gcab : GCabCabinet) (tmp_path : String) (fs1 fs2 : FS)
    (filelist : List String)
    (hload : env.gcab_cabinet_load input_stream = .ok gcab)
    (htmp : g_dir_make_tmp env fs = .ok (tmp_path, fs1))
    (hext : gcab_cabinet_extract_simple gcab.files tmp_path as_store_cab_cb fs1 []
      = (fs2, filelist, .ok ()))
    (hok : (as_store_cab_from_stream env store input_stream size fs).ret = .ok ()) :
    ∃ apps apps1, scan_loop env fs2 tmp_path size filelist [] = .ok apps ∧
      attach_loop tmp_path fs2 apps = .ok apps1 ∧
      (as_store_cab_from_stream env store input_stream size fs).store
        = publish_loop store apps1 := by
  unfold as_store_cab_from_stream at hok ⊢
  simp only [hload, htmp, hext] at hok ⊢
  cases hs : scan_loop env fs2 tmp_path size filelist [] with
  | error message => simp [hs] at hok
  | ok apps =>
    simp only [hs] at hok ⊢
    cases ha : attach_loop tmp_path fs2 apps with
    | error message => simp [ha] at hok
    | ok apps1 => exact ⟨apps, apps1, rfl, ha, rfl⟩

theorem from_stream_of_stages (env : Env) (store : AsStore) (input_stream : Bytes)
    (size : Nat) (fs : FS) (gcab : GCabCabinet) (tmp_path : String) (fs1 fs2 : FS)
    (filelist : List String) (apps apps1 : List AsApp)
    (hload : env.gcab_cabinet_load input_stream = .ok gcab)
    (htmp : g_dir_make_tmp env fs = .ok (tmp_path, fs1))
    (hext : gcab_cabinet_extract_simple gcab.files tmp_path as_store_cab_cb fs1 []
      = (fs2, filelist, .ok ()))
    (hscan : scan_loop env fs2 tmp_path size filelist [] = .ok apps)
    (hattach : attach_loop tmp_path fs2 apps = .ok apps1) :
    as_store_cab_from_stream env store input_stream size fs =
      ⟨.ok (), publish_loop store apps1,
        g_rmdir (unlink_loop fs2 tmp_path filelist) tmp_path⟩ := by
  unfold as_store_cab_from_stream
  simp only [hload, htmp, hext, hscan, hattach]

theorem fixup_release_fields (rel : AsRelease) (size : Nat) :
    (fixup_release rel size).size_download
      = (if 0 < size ∧ rel.size_download = 0 then size else rel.size_download) ∧
    (fixup_release rel size).filename = some (rel.filename.getD "firmware.bin") ∧
    (fixup_release rel size).version = rel.version := by
  unfold fixup_release
  cases hf : rel.filename <;> by_cases hs : 0 < size <;>
    by_cases hd : rel.size_download = 0 <;>
    simp [hf, hs, hd, as_release_get_filename, as_release_set_filename, as_release_get_size,
      as_release_set_size]

theorem from_stream_ok_spec (env : Env) (store : AsStore) (input_stream : Bytes)
    (size : Nat) (fs : FS) (gcab : GCabCabinet) (tmp_path : String) (fs1 fs2 : FS)
    (filelist : List String)
    (hload : env.gcab_cabinet_load input_stream = .ok gcab)
    (htmp : g_dir_make_tmp env fs = .ok (tmp_path, fs1))
    (hext : gcab_cabinet_extract_simple gcab.files tmp_path as_store_cab_cb fs1 []
      = (fs2, filelist, .ok ()))
    (hok : (as_store_cab_from_stream env store input_stream size fs).ret = .ok ()) :
    ∃ parsed added : List AsApp,
      List.Forall₂
        (fun fn p => as_app_parse_file env fs2 (g_build_filename [tmp_path, fn]) = .ok p)
        (metainfo_members filelist) parsed ∧
      (as_store_cab_from_stream env store input_stream size fs).store
        = ⟨store.origin, store.apps ++ added⟩ ∧
      List.Forall₂ (Published size tmp_path fs2) parsed added := by
  obtain ⟨apps, apps1, hscan, hattach, hstore⟩ :=
    from_stream_ok_stages env store input_stream size fs gcab tmp_path fs1 fs2 filelist
      hload htmp hext hok
  obtain ⟨parsed, hparse, hne, happs⟩ := scan_loop_spec env fs2 tmp_path size filelist [] apps hscan
  refine ⟨parsed, apps1, hparse, by rw [hstore, publish_loop_eq], ?_⟩
  have h1 := attach_loop_spec tmp_path fs2 apps apps1 hattach
  rw [happs, List.nil_append, List.forall₂_map_left_iff] at h1
  have h2 := (List.forall₂_and_left _ _).mpr ⟨hne, h1⟩
  refine h2.imp ?_
  rintro p a ⟨hp, hid, hrel⟩
  cases hr : p.releases with
  | nil => exact absurd hr hp
  | cons rel_p rest_p =>
    have hfix : fixup_app size p = ⟨p.id, fixup_release rel_p size :: rest_p⟩ := by
      simp [fixup_app, as_app_get_release_default, hr, app_set_release_default]
    rw [hfix] at hid hrel
    simp only at hid hrel
    obtain ⟨rel_a, rest_a, h3, h4, h5⟩ := List.forall₂_cons_left_iff.mp hrel
    exact ⟨rel_p, rest_p, rel_a, rest_a, hr, h5, hid, h3, h4⟩

theorem fs_write_keeps (fs : FS) (path other : String) (data : Bytes)
    (h : g_file_test fs path = true) : g_file_test (fs_write fs other data) path = true := by
  unfold g_file_test fs_write at *
  by_cases hp : path = other
  · subst hp
    simp [List.lookup]
  · have hne : (path == other) = false := by simpa using hp
    simp only [List.lookup, hne]
    have hl : List.lookup path (fs_remove fs other) = List.lookup path fs := by
      unfold fs_remove
      clear h
      induction fs with
      | nil => rfl
      | cons e rest ih =>
        obtain ⟨key, node⟩ := e
        by_cases hk : key = other
        · subst hk
          simp [List.filter, List.lookup, hne, ih]
        · have h2 : (key != other) = true := by simpa using hk
          simp only [List.filter, h2, List.lookup]
          cases hkk : path == key <;> simp [ih]
    rw [hl]
    exact h

theorem extract_keeps (dir : String) (cb : GCabFile → List String → List String × Bool)
    (path : String) :
    ∀ (files : List GCabFile) (fs : FS) (filelist : List String),
      g_file_test fs path = true →
      g_file_test (gcab_cabinet_extract_simple files dir cb fs filelist).1 path = true := by
  intro files
  induction files with
  | nil => intro fs filelist h; exact h
  | cons file rest ih =>
    intro fs filelist h
    unfold gcab_cabinet_extract_simple
    rcases hcb : cb file filelist with ⟨filelist1, accept⟩
    cases accept with
    | false => exact ih fs filelist1 h
    | true =>
      simp only
      cases hd : file.data with
      | error message => exact h
      | ok data => exact ih _ filelist1 (fs_write_keeps fs path _ data h)

theorem fs_write_self (fs : FS) (path : String) (data : Bytes) :
    g_file_test (fs_write fs path data) path = true := by
  simp [g_file_test, fs_write, List.lookup]

theorem extract_filelist (dir : String) :
    ∀ (files : List GCabFile) (fs : FS) (filelist : List String) (fs2 : FS)
      (filelist2 : List String),
      gcab_cabinet_extract_simple files dir as_store_cab_cb fs filelist
        = (fs2, filelist2, .ok ()) →
      filelist2 = filelist ++ files.map (fun file => file.name) ∧
      ∀ file ∈ files, (∃ data, file.data = .ok data) ∧
        g_file_test fs2 (g_build_filename [dir, file.name]) = true := by
  intro files
  induction files with
  | nil =>
    intro fs filelist fs2 filelist2 h
    simp only [gcab_cabinet_extract_simple, Prod.mk.injEq] at h
    exact ⟨by simp [h.2.1], by simp⟩
  | cons file rest ih =>
    intro fs filelist fs2 filelist2 h
    unfold gcab_cabinet_extract_simple at h
    simp only [as_store_cab_cb] at h
    cases hd : file.data with
    | error message => simp [hd] at h
    | ok data =>
      simp only [hd] at h
      obtain ⟨h1, h2⟩ := ih _ _ _ _ h
      refine ⟨by simp [h1], ?_⟩
      intro f hf
      rcases List.mem_cons.mp hf with rfl | hmem
      · refine ⟨⟨data, hd⟩, ?_⟩
        have hk := extract_keeps dir as_store_cab_cb (g_build_filename [dir, f.name]) rest
          (fs_write fs (g_build_filename [dir, f.name]) data) (filelist ++ [f.name])
          (fs_write_self _ _ _)
        rw [h] at hk
        exact hk
      · exact h2 f hmem

theorem attached_versions (tmp_path : String) (fs : FS) (rels rels1 : List AsRelease)
    (h : List.Forall₂
      (fun r r1 => as_store_cab_set_release_blobs r tmp_path fs = (r1, .ok ())) rels rels1) :
    rels1.map (fun r => r.version) = rels.map (fun r => r.version) := by
  induction h with
  | nil => rfl
  | @cons r r1 l l1 hr _ ih =>
    have hv := (set_release_blobs_fields r tmp_path fs).2.2
    rw [hr] at hv
    simp only [List.map_cons, ih]
    simp only at hv
    rw [hv]

theorem attached_fields (tmp_path : String) (fs : FS) (rels rels1 : List AsRelease)
    (h : List.Forall₂
      (fun r r1 => as_store_cab_set_release_blobs r tmp_path fs = (r1, .ok ())) rels rels1) :
    List.Forall₂
      (fun r r1 => r1.size_download = r.size_download ∧ r1.filename = r.filename)
      rels rels1 := by
  refine h.imp ?_
  intro r r1 hr
  have hf := set_release_blobs_fields r tmp_path fs
  rw [hr] at hf
  exact ⟨hf.1, hf.2.1⟩

/-! ## The pipeline: the stated properties -/

/-- C8: no partial publication.  Whenever `as_store_cab_from_stream` returns
an error, whatever the failing stage, the store is exactly the store the
call received: no application has been added. -/
theorem C8_no_partial_publication (env : Env) (store : AsStore) (input_stream : Bytes)
    (size : Nat) (fs : FS)
    (herr : (as_store_cab_from_stream env store input_stream size fs).ret ≠ .ok ()) :
    (as_store_cab_from_stream env store input_stream size fs).store = store :=
  from_stream_error_store env store input_stream size fs herr

/-- Witness of C8: a metainfo document without releases fails the ingest and
leaves the store as it was. -/
theorem C8_no_partial_publication_witness :
    (as_store_cab_from_stream (sample_env cab_norelease) sample_store [1] 10 []).ret
      ≠ .ok () ∧
    (as_store_cab_from_stream (sample_env cab_norelease) sample_store [1] 10 []).store
      = sample_store :=
  ⟨by simp [show (as_store_cab_from_stream (sample_env cab_norelease) sample_store
      [1] 10 []).ret = .error "no releases in metainfo file" from rfl],
   C8_no_partial_publication (sample_env cab_norelease) sample_store [1] 10 []
    (by simp [show (as_store_cab_from_stream (sample_env cab_norelease) sample_store
      [1] 10 []).ret = .error "no releases in metainfo file" from rfl])⟩


/-- C10: when the cabinet loads, the scratch directory is made and the
extraction succeeds, the file list that `as_store_cab_cb` collected is
exactly the list of the names of the cabinet members, in archive order, and
every member was decoded and is in the scratch directory.  For a successful
run of `as_store_cab_from_stream`, the applications added to the store are
then, one per member and in that order, the applications parsed from the
members classified as metadata documents: the store is the old store with
`added` appended, and each added application is the parsed application (same
identity, same releases by version) with its default release fixed up and
the blobs of every release attached, and nothing else.  An archive without
any metadata document among its members yields success with the store left
as it was. -/
theorem C10_published_sequence (env : Env) (store : AsStore) (input_stream : Bytes)
    (size : Nat) (fs : FS) (gcab : GCabCabinet) (tmp_path : String) (fs1 fs2 : FS)
    (filelist : List String)
    (hload : env.gcab_cabinet_load input_stream = .ok gcab)
    (htmp : g_dir_make_tmp env fs = .ok (tmp_path, fs1))
    (hext : gcab_cabinet_extract_simple gcab.files tmp_path as_store_cab_cb fs1 []
      = (fs2, filelist, .ok ())) :
    filelist = gcab.files.map (fun file => file.name) ∧
    (∀ file ∈ gcab.files, (∃ data, file.data = .ok data) ∧
      g_file_test fs2 (g_build_filename [tmp_path, file.name]) = true) ∧
    ((as_store_cab_from_stream env store input_stream size fs).ret = .ok () →
      ∃ parsed added : List AsApp,
        List.Forall₂
          (fun fn p => as_app_parse_file env fs2 (g_build_filename [tmp_path, fn]) = .ok p)
          (metainfo_members (gcab.files.map (fun file => file.name))) parsed ∧
        (as_store_cab_from_stream env store input_stream size fs).store
          = ⟨store.origin, store.apps ++ added⟩ ∧
        List.Forall₂
          (fun p a => a.id = p.id ∧
            a.releases.map (fun r => r.version) = p.releases.map (fun r => r.version) ∧
            ∃ rel_p rest_p rel_a rest_a,
              p.releases = rel_p :: rest_p ∧ a = ⟨p.id, rel_a :: rest_a⟩ ∧
              as_store_cab_set_release_blobs (fixup_release rel_p size) tmp_path fs2
                = (rel_a, .ok ()) ∧
              List.Forall₂
                (fun r r1 => as_store_cab_set_release_blobs r tmp_path fs2 = (r1, .ok ()))
                rest_p rest_a)
          parsed added) ∧
    (metainfo_members (gcab.files.map (fun file => file.name)) = [] →
      (as_store_cab_from_stream env store input_stream size fs).ret = .ok () ∧
      (as_store_cab_from_stream env store input_stream size fs).store = store) := by
  obtain ⟨hfl, hfiles⟩ := extract_filelist tmp_path gcab.files fs1 [] fs2 filelist hext
  rw [List.nil_append] at hfl
  refine ⟨hfl, hfiles, ?_, ?_⟩
  · intro hok
    obtain ⟨parsed, added, h1, h2, h3⟩ :=
      from_stream_ok_spec env store input_stream size fs gcab tmp_path fs1 fs2 filelist
        hload htmp hext hok
    rw [hfl] at h1
    refine ⟨parsed, added, h1, h2, h3.imp ?_⟩
    rintro p a ⟨rel_p, rest_p, rel_a, rest_a, hp, ha, hid, hhead, hrest⟩
    have hv := (set_release_blobs_fields (fixup_release rel_p size) tmp_path fs2).2.2
    rw [hhead] at hv
    simp only at hv
    refine ⟨hid, ?_, rel_p, rest_p, rel_a, rest_a, hp, ?_, hhead, hrest⟩
    · rw [hp, ha, List.map_cons, List.map_cons, attached_versions tmp_path fs2 _ _ hrest, hv,
        (fixup_release_fields rel_p size).2.2]
    · cases a with
      | mk aid arels =>
        simp only at ha hid
        rw [ha, hid]
  · intro hnone
    rw [← hfl] at hnone
    have hscan := scan_loop_no_metainfo env fs2 tmp_path size filelist [] hnone
    have hrun := from_stream_of_stages env store input_stream size fs gcab tmp_path fs1 fs2
      filelist [] [] hload htmp hext hscan rfl
    rw [hrun]
    exact ⟨rfl, rfl⟩

set_option maxRecDepth 8000 in
/-- Witness of C10: the happy-path archive publishes the one application of
its one metadata document, with the sizes fixed up and both blobs attached;
an archive with only a `.inf` descriptor and a text file succeeds and
publishes nothing. -/
theorem C10_published_sequence_witness :
    ((sample_env cab_happy).gcab_cabinet_load [1] = .ok cab_happy ∧
      g_dir_make_tmp (sample_env cab_happy) [] = .ok (sample_tmp, [(sample_tmp, .dir)]) ∧
      gcab_cabinet_extract_simple cab_happy.files sample_tmp as_store_cab_cb
        [(sample_tmp, .dir)] []
        = (extracted_happy, ["x.metainfo.xml", "fw.bin", "fw.bin.asc"], .ok ()) ∧
      ["x.metainfo.xml", "fw.bin", "fw.bin.asc"]
        = cab_happy.files.map (fun file => file.name) ∧
      (as_store_cab_from_stream (sample_env cab_happy) sample_store [1] 4096 []).ret = .ok () ∧
      (as_store_cab_from_stream (sample_env cab_happy) sample_store [1] 4096 []).store.apps
        = [⟨"com.example.fw",
            [⟨"1.0", some "fw.bin", 1024, 4096,
              [("fw.bin.asc", List.replicate 256 1), ("fw.bin", List.replicate 1024 0)]⟩]⟩] ∧
      ∃ parsed added : List AsApp,
        List.Forall₂
          (fun fn p => as_app_parse_file (sample_env cab_happy) extracted_happy
            (g_build_filename [sample_tmp, fn]) = .ok p)
          (metainfo_members (cab_happy.files.map (fun file => file.name))) parsed ∧
        (as_store_cab_from_stream (sample_env cab_happy) sample_store [1] 4096 []).store
          = ⟨sample_store.origin, sample_store.apps ++ added⟩ ∧
        List.Forall₂
          (fun p a => a.id = p.id ∧
            a.releases.map (fun r => r.version) = p.releases.map (fun r => r.version) ∧
            ∃ rel_p rest_p rel_a rest_a,
              p.releases = rel_p :: rest_p ∧ a = ⟨p.id, rel_a :: rest_a⟩ ∧
              as_store_cab_set_release_blobs (fixup_release rel_p 4096) sample_tmp
                extracted_happy = (rel_a, .ok ()) ∧
              List.Forall₂
                (fun r r1 => as_store_cab_set_release_blobs r sample_tmp extracted_happy
                  = (r1, .ok ()))
                rest_p rest_a)
          parsed added) ∧
    (metainfo_members (cab_inf.files.map (fun file => file.name)) = [] ∧
      (as_store_cab_from_stream (sample_env cab_inf) sample_store [1] 4096 []).ret = .ok () ∧
      (as_store_cab_from_stream (sample_env cab_inf) sample_store [1] 4096 []).store
        = sample_store) :=
  ⟨⟨by rfl, by rfl, by rfl,
    (C10_published_sequence (sample_env cab_happy) sample_store [1] 4096 [] cab_happy
      sample_tmp [(sample_tmp, .dir)] extracted_happy
      ["x.metainfo.xml", "fw.bin", "fw.bin.asc"] (by rfl) (by rfl) (by rfl)).1,
    by rfl, by rfl,
    (C10_published_sequence (sample_env cab_happy) sample_store [1] 4096 [] cab_happy
      sample_tmp [(sample_tmp, .dir)] extracted_happy
      ["x.metainfo.xml", "fw.bin", "fw.bin.asc"] (by rfl) (by rfl) (by rfl)).2.2.1 (by rfl)⟩,
   ⟨by rfl,
    (C10_published_sequence (sample_env cab_inf) sample_store [1] 4096 [] cab_inf
      sample_tmp [(sample_tmp, .dir)] extracted_inf
      ["driver.inf", "readme.txt"] (by rfl) (by rfl) (by rfl)).2.2.2 (by rfl)⟩⟩

/-- C7: a missing firmware file is not an error.  When neither
`<scratch>/<basename>` nor `<scratch>/<basename>.asc` exists,
`as_store_cab_set_release_blobs` returns success and leaves the release
unchanged; and an ingest whose scanned releases all reference absent files
succeeds and publishes the scanned applications as they are. -/
theorem C7_missing_firmware_is_not_an_error
    (release : AsRelease) (scratch : String) (scratch_fs : FS)
    (hfw : g_file_test scratch_fs (rel_fn release scratch) = false)
    (hasc : g_file_test scratch_fs (asc_fn release scratch) = false)
    (env : Env) (store : AsStore) (input_stream : Bytes)
    (size : Nat) (fs : FS) (gcab : GCabCabinet) (tmp_path : String) (fs1 fs2 : FS)
    (filelist : List String) (apps : List AsApp)
    (hload : env.gcab_cabinet_load input_stream = .ok gcab)
    (htmp : g_dir_make_tmp env fs = .ok (tmp_path, fs1))
    (hext : gcab_cabinet_extract_simple gcab.files tmp_path as_store_cab_cb fs1 []
      = (fs2, filelist, .ok ()))
    (hscan : scan_loop env fs2 tmp_path size filelist [] = .ok apps)
    (habsent : ∀ app ∈ apps, ∀ rel ∈ app.releases,
      g_file_test fs2 (rel_fn rel tmp_path) = false ∧
      g_file_test fs2 (asc_fn rel tmp_path) = false) :
    as_store_cab_set_release_blobs release scratch scratch_fs = (release, .ok ()) ∧
    (as_store_cab_from_stream env store input_stream size fs).ret = .ok () ∧
    (as_store_cab_from_stream env store input_stream size fs).store
      = ⟨store.origin, store.apps ++ apps⟩ := by
  refine ⟨set_release_blobs_absent release scratch scratch_fs hfw hasc, ?_⟩
  have hattach := attach_loop_absent tmp_path fs2 apps habsent
  have hrun := from_stream_of_stages env store input_stream size fs gcab tmp_path fs1 fs2
    filelist apps apps hload htmp hext hscan hattach
  rw [hrun]
  exact ⟨rfl, publish_loop_eq store apps⟩

/-- Witness of C7: metadata that references `absent.bin`, which the archive
does not hold: the ingest succeeds, the release has no blob, its
installed-size is untouched and its download-size is the archive size. -/
theorem C7_missing_firmware_is_not_an_error_witness :
    g_file_test extracted_missing (rel_fn release_missing sample_tmp) = false ∧
    g_file_test extracted_missing (asc_fn release_missing sample_tmp) = false ∧
    as_store_cab_set_release_blobs release_missing sample_tmp extracted_missing
      = (release_missing, .ok ()) ∧
    (as_store_cab_from_stream (sample_env cab_missing) sample_store [1] 4096 []).ret
      = .ok () ∧
    (as_store_cab_from_stream (sample_env cab_missing) sample_store [1] 4096 []).store
      = ⟨sample_store.origin, sample_store.apps ++
          [⟨"com.example.missing", [⟨"1.0", some "absent.bin", 0, 4096, []⟩]⟩]⟩ :=
  ⟨by rfl, by rfl,
   C7_missing_firmware_is_not_an_error release_missing sample_tmp extracted_missing
     (by rfl) (by rfl) (sample_env cab_missing) sample_store [1] 4096 [] cab_missing
     sample_tmp [(sample_tmp, .dir)] extracted_missing ["x.metainfo.xml"]
     [⟨"com.example.missing", [⟨"1.0", some "absent.bin", 0, 4096, []⟩]⟩]
     (by rfl) (by rfl) (by rfl) (by rfl) (by decide)⟩

/-- C3 (as amended): for a successful run of `as_store_cab_from_stream` with
archive size > 0, the default release of every application published to the
store has download-size equal to the archive size if the metadata declared
download-size 0, and its declared download-size otherwise, so it is
non-zero; and every release, default or not, that declared a non-zero
download-size keeps it. -/
theorem C3_default_release_download_size (env : Env) (store : AsStore)
    (input_stream : Bytes) (size : Nat) (fs : FS) (gcab : GCabCabinet) (tmp_path : String)
    (fs1 fs2 : FS) (filelist : List String)
    (hsize : 0 < size)
    (hload : env.gcab_cabinet_load input_stream = .ok gcab)
    (htmp : g_dir_make_tmp env fs = .ok (tmp_path, fs1))
    (hext : gcab_cabinet_extract_simple gcab.files tmp_path as_store_cab_cb fs1 []
      = (fs2, filelist, .ok ()))
    (hok : (as_store_cab_from_stream env store input_stream size fs).ret = .ok ()) :
    ∃ parsed added : List AsApp,
      List.Forall₂
        (fun fn p => as_app_parse_file env fs2 (g_build_filename [tmp_path, fn]) = .ok p)
        (metainfo_members filelist) parsed ∧
      (as_store_cab_from_stream env store input_stream size fs).store.apps
        = store.apps ++ added ∧
      List.Forall₂
        (fun p a =>
          (∃ rel_p rel_a, as_app_get_release_default p = some rel_p ∧
            as_app_get_release_default a = some rel_a ∧
            as_release_get_size rel_a .DOWNLOAD
              = (if as_release_get_size rel_p .DOWNLOAD = 0 then size
                 else as_release_get_size rel_p .DOWNLOAD) ∧
            as_release_get_size rel_a .DOWNLOAD ≠ 0) ∧
          List.Forall₂
            (fun rp ra => as_release_get_size rp .DOWNLOAD ≠ 0 →
              as_release_get_size ra .DOWNLOAD = as_release_get_size rp .DOWNLOAD)
            p.releases a.releases)
        parsed added := by
  obtain ⟨parsed, added, h1, h2, h3⟩ :=
    from_stream_ok_spec env store input_stream size fs gcab tmp_path fs1 fs2 filelist
      hload htmp hext hok
  refine ⟨parsed, added, h1, by rw [h2], h3.imp ?_⟩
  rintro p a ⟨rel_p, rest_p, rel_a, rest_a, hp, ha, _, hhead, hrest⟩
  have hd := (set_release_blobs_fields (fixup_release rel_p size) tmp_path fs2).1
  rw [hhead] at hd
  simp only at hd
  rw [(fixup_release_fields rel_p size).1] at hd
  have hsz : ∀ r : AsRelease, as_release_get_size r .DOWNLOAD = r.size_download :=
    fun _ => rfl
  simp only [hsz]
  constructor
  · refine ⟨rel_p, rel_a, by simp [as_app_get_release_default, hp],
      by simp [as_app_get_release_default, ha], ?_, ?_⟩
    · rw [hd]
      by_cases h0 : rel_p.size_download = 0 <;> simp [h0, hsize]
    · rw [hd]
      by_cases h0 : rel_p.size_download = 0 <;> simp [h0, hsize]
      omega
  · rw [hp, ha]
    refine List.Forall₂.cons ?_ ((attached_fields tmp_path fs2 _ _ hrest).imp ?_)
    · intro hne
      rw [hd]
      simp [hne]
    · intro r r1 hr _
      exact hr.1

/-- Witness of C3 (as amended): the happy-path archive of 4096 octets. -/
theorem C3_default_release_download_size_witness :
    0 < 4096 ∧
    (as_store_cab_from_stream (sample_env cab_happy) sample_store [1] 4096 []).ret = .ok () ∧
    ∃ parsed added : List AsApp,
      List.Forall₂
        (fun fn p => as_app_parse_file (sample_env cab_happy) extracted_happy
          (g_build_filename [sample_tmp, fn]) = .ok p)
        (metainfo_members ["x.metainfo.xml", "fw.bin", "fw.bin.asc"]) parsed ∧
      (as_store_cab_from_stream (sample_env cab_happy) sample_store [1] 4096 []).store.apps
        = sample_store.apps ++ added ∧
      List.Forall₂
        (fun p a =>
          (∃ rel_p rel_a, as_app_get_release_default p = some rel_p ∧
            as_app_get_release_default a = some rel_a ∧
            as_release_get_size rel_a .DOWNLOAD
              = (if as_release_get_size rel_p .DOWNLOAD = 0 then 4096
                 else as_release_get_size rel_p .DOWNLOAD) ∧
            as_release_get_size rel_a .DOWNLOAD ≠ 0) ∧
          List.Forall₂
            (fun rp ra => as_release_get_size rp .DOWNLOAD ≠ 0 →
              as_release_get_size ra .DOWNLOAD = as_release_get_size rp .DOWNLOAD)
            p.releases a.releases)
        parsed added :=
  ⟨by decide, by rfl,
   C3_default_release_download_size (sample_env cab_happy) sample_store [1] 4096 []
     cab_happy sample_tmp [(sample_tmp, .dir)] extracted_happy
     ["x.metainfo.xml", "fw.bin", "fw.bin.asc"] (by decide) (by rfl) (by rfl) (by rfl)
     (by rfl)⟩

/-- Counterexample to C3 as stated: a successful run with archive size 4096
on metadata that declares two releases with download-size 0 publishes the
second (non-default) release with download-size 0. -/
theorem C3_counterexample :
    sample_parse_metainfo [3] = .ok ⟨"com.example.two",
      [⟨"2.0", some "fw.bin", 0, 0, []⟩, ⟨"1.0", some "old.bin", 0, 0, []⟩]⟩ ∧
    gcab_cabinet_extract_simple cab_two.files sample_tmp as_store_cab_cb
      [(sample_tmp, .dir)] [] = (extracted_two, ["x.metainfo.xml", "fw.bin"], .ok ()) ∧
    (as_store_cab_from_stream (sample_env cab_two) sample_store [1] 4096 []).ret = .ok () ∧
    (as_store_cab_from_stream (sample_env cab_two) sample_store [1] 4096 []).store.apps
      = [⟨"com.example.two",
          [⟨"2.0", some "fw.bin", 3, 4096, [("fw.bin", [7, 7, 7])]⟩,
           ⟨"1.0", some "old.bin", 0, 0, []⟩]⟩] ∧
    ¬ (∀ app ∈ (as_store_cab_from_stream (sample_env cab_two) sample_store [1] 4096
          []).store.apps,
        ∀ rel ∈ as_app_get_releases app, as_release_get_size rel .DOWNLOAD ≠ 0) := by
  refine ⟨by rfl, by rfl, by rfl, by rfl, ?_⟩
  rw [show (as_store_cab_from_stream (sample_env cab_two) sample_store [1] 4096 []).store.apps
      = [⟨"com.example.two",
          [⟨"2.0", some "fw.bin", 3, 4096, [("fw.bin", [7, 7, 7])]⟩,
           ⟨"1.0", some "old.bin", 0, 0, []⟩]⟩] from rfl]
  decide

/-- C9 (as amended): whenever `as_store_cab_from_file` returns an error, the
applications of the store are exactly those it held before the call, and the
origin of the store has been set to the basename of the file: the origin is
written first, before the file is looked at. -/
theorem C9_failed_file_ingest_store (env : Env) (store : AsStore) (file : String)
    (cancelled : Bool) (fs : FS)
    (herr : (as_store_cab_from_file env store file cancelled fs).ret ≠ .ok ()) :
    (as_store_cab_from_file env store file cancelled fs).store.apps = store.apps ∧
    (as_store_cab_from_file env store file cancelled fs).store.origin
      = some (g_file_get_basename file) := by
  unfold as_store_cab_from_file at herr ⊢
  simp only at herr ⊢
  cases hq : g_file_query_info fs file cancelled with
  | error message => exact ⟨rfl, rfl⟩
  | ok size =>
    simp only [hq] at herr ⊢
    cases hr : g_file_read fs file cancelled with
    | error message => exact ⟨rfl, rfl⟩
    | ok input_stream =>
      simp only [hr] at herr ⊢
      rw [from_stream_error_store env _ input_stream size fs herr]
      exact ⟨rfl, rfl⟩

/-- Witness of C9 (as amended): a path that does not exist. -/
theorem C9_failed_file_ingest_store_witness :
    (as_store_cab_from_file (sample_env cab_happy) sample_store "/srv/fw/missing.cab"
      false []).ret ≠ .ok () ∧
    (as_store_cab_from_file (sample_env cab_happy) sample_store "/srv/fw/missing.cab"
      false []).store.apps = sample_store.apps ∧
    (as_store_cab_from_file (sample_env cab_happy) sample_store "/srv/fw/missing.cab"
      false []).store.origin = some (g_file_get_basename "/srv/fw/missing.cab") :=
  ⟨by simp [show (as_store_cab_from_file (sample_env cab_happy) sample_store
      "/srv/fw/missing.cab" false []).ret
      = .error "Failed to get info for /srv/fw/missing.cab: No such file or directory"
      from rfl],
   C9_failed_file_ingest_store (sample_env cab_happy) sample_store "/srv/fw/missing.cab"
    false []
    (by simp [show (as_store_cab_from_file (sample_env cab_happy) sample_store
      "/srv/fw/missing.cab" false []).ret
      = .error "Failed to get info for /srv/fw/missing.cab: No such file or directory"
      from rfl])⟩

/-- Counterexample to C9 as stated: the file cannot be stat-ed, the call
fails before anything is decoded, and the origin of the store has changed
from `previous.cab` to `missing.cab`. -/
theorem C9_counterexample :
    (as_store_cab_from_file (sample_env cab_happy) sample_store "/srv/fw/missing.cab"
      false []).ret
      = .error "Failed to get info for /srv/fw/missing.cab: No such file or directory" ∧
    sample_store.origin = some "previous.cab" ∧
    (as_store_cab_from_file (sample_env cab_happy) sample_store "/srv/fw/missing.cab"
      false []).store.origin = some "missing.cab" ∧
    (as_store_cab_from_file (sample_env cab_happy) sample_store "/srv/fw/missing.cab"
      false []).store ≠ sample_store := by
  refine ⟨by rfl, by rfl, by rfl, ?_⟩
  rw [show (as_store_cab_from_file (sample_env cab_happy) sample_store "/srv/fw/missing.cab"
      false []).store = ⟨some "missing.cab", []⟩ from rfl]
  decide

/-! ## Cleanup and read errors: what the code does -/

theorem read_loop_never_fails :
    ∀ (fd : List (Except String Bytes)) (size : Nat) (input_stream : Bytes),
      ∃ result, read_loop fd size input_stream = .ok result := by
  intro fd
  induction fd with
  | nil => intro size input_stream; exact ⟨_, rfl⟩
  | cons read rest ih =>
    intro size input_stream
    unfold read_loop
    cases read with
    | error message =>
      exact ⟨(size, input_stream), by simp [Except.toOption, g_bytes_get_size]⟩
    | ok bytes =>
      by_cases h0 : g_bytes_get_size (some bytes) = 0
      · exact ⟨(size, input_stream), by simp [Except.toOption, h0]⟩
      · obtain ⟨result, hres⟩ := ih ((size + g_bytes_get_size (some bytes)) % 2 ^ 64)
          (input_stream ++ bytes)
        refine ⟨result, ?_⟩
        simp only [Except.toOption, h0, if_false]
        exact hres

theorem from_fd_runs_pipeline (env : Env) (store : AsStore)
    (fd : List (Except String Bytes)) (fs : FS) :
    ∃ size input_stream, as_store_cab_from_fd env store fd fs
      = as_store_cab_from_stream env store input_stream size fs := by
  obtain ⟨⟨size, input_stream⟩, h⟩ := read_loop_never_fails fd 0 []
  exact ⟨size, input_stream, by simp [as_store_cab_from_fd, h]⟩

theorem scratch_survives_every_error (env : Env) (store : AsStore) (input_stream : Bytes)
    (size : Nat) (fs : FS) (gcab : GCabCabinet) (tmp_path : String) (fs1 : FS)
    (hload : env.gcab_cabinet_load input_stream = .ok gcab)
    (htmp : g_dir_make_tmp env fs = .ok (tmp_path, fs1))
    (herr : (as_store_cab_from_stream env store input_stream size fs).ret ≠ .ok ()) :
    g_file_test (as_store_cab_from_stream env store input_stream size fs).fs tmp_path
      = true := by
  have hmk : g_file_test fs1 tmp_path = true := by
    unfold g_dir_make_tmp at htmp
    cases ht : env.tmp_dir with
    | error message => simp [ht] at htmp
    | ok made =>
      simp only [ht, Except.ok.injEq, Prod.mk.injEq] at htmp
      obtain ⟨h1, h2⟩ := htmp
      subst h1
      subst h2
      simp [g_file_test, fs_mkdir, List.lookup]
  have hkeep := extract_keeps tmp_path as_store_cab_cb tmp_path gcab.files fs1 [] hmk
  unfold as_store_cab_from_stream at herr ⊢
  simp only [hload, htmp] at herr ⊢
  rcases hext : gcab_cabinet_extract_simple gcab.files tmp_path as_store_cab_cb fs1 []
    with ⟨fs2, filelist, status⟩
  rw [hext] at hkeep
  simp only at hkeep
  cases status with
  | error message => exact hkeep
  | ok u =>
    cases u
    simp only [hext] at herr ⊢
    cases hs : scan_loop env fs2 tmp_path size filelist [] with
    | error message => exact hkeep
    | ok apps =>
      simp only [hs] at herr ⊢
      cases ha : attach_loop tmp_path fs2 apps with
      | error message => exact hkeep
      | ok apps1 => simp [ha] at herr

/-- C1, evaluated at a failing input.  The archive holds a metainfo document
without releases and a firmware file; the run starts on an empty filesystem,
creates the scratch directory, extracts both members and fails with
`no releases in metainfo file`.  When it returns, the scratch directory and
both extracted files are still there.  The successful run on the happy-path
archive, in contrast, leaves nothing behind. -/
theorem C1_scratch_left_behind_on_error :
    (as_store_cab_from_stream (sample_env cab_norelease) sample_store [1] 10 []).ret
      = .error "no releases in metainfo file" ∧
    (as_store_cab_from_stream (sample_env cab_norelease) sample_store [1] 10 []).fs
      = extracted_norelease ∧
    g_file_test
      (as_store_cab_from_stream (sample_env cab_norelease) sample_store [1] 10 []).fs
      "/tmp/appstream-glib-A1B2C3" = true ∧
    g_file_test
      (as_store_cab_from_stream (sample_env cab_norelease) sample_store [1] 10 []).fs
      "/tmp/appstream-glib-A1B2C3/fw.bin" = true ∧
    (as_store_cab_from_stream (sample_env cab_happy) sample_store [1] 4096 []).ret = .ok () ∧
    (as_store_cab_from_stream (sample_env cab_happy) sample_store [1] 4096 []).fs = [] := by
  refine ⟨by rfl, by rfl, by rfl, by rfl, by rfl, by rfl⟩

/-- C2, evaluated at a failing input.  The handle yields one chunk of four
octets and then fails with `Input/output error`.  The call does not return
that error: it leaves the read loop as at end of input and runs the decoding
pipeline on the four buffered octets, here with success and one application
published. -/
theorem C2_read_error_is_swallowed :
    read_loop [.ok [77, 83, 67, 70], .error "Input/output error"] 0 []
      = .ok (4, [77, 83, 67, 70]) ∧
    as_store_cab_from_fd (sample_env cab_happy) sample_store
      [.ok [77, 83, 67, 70], .error "Input/output error"] []
      = as_store_cab_from_stream (sample_env cab_happy) sample_store [77, 83, 67, 70] 4 [] ∧
    (as_store_cab_from_fd (sample_env cab_happy) sample_store
      [.ok [77, 83, 67, 70], .error "Input/output error"] []).ret = .ok () ∧
    (as_store_cab_from_fd (sample_env cab_happy) sample_store
      [.ok [77, 83, 67, 70], .error "Input/output error"] []).store.apps.length = 1 := by
  refine ⟨by rfl, by rfl, by rfl, by rfl⟩

end AsStoreCab
